import Mathlib

/-!
Verification of the sleeping-barber `Shop` monitor
(`src/Shop.h`, `src/Shop.cpp`) and its driver protocol (`src/driver.cpp`).

The monitor's shared state is embedded as a `Shop` record whose fields
mirror the C++ data members.  Each monitor operation holds the single
mutex from entry to exit except while suspended in a `pthread_cond_wait`,
so every operation is embedded as one or two atomic segments split at its
wait call:

* `Shop.visitShopEntry`   — `visitShop` from lock acquisition up to the
  `cond_customers_waiting_` wait (it either returns, or blocks);
  `Shop.visitShopResume`  — the code after that wait (the single retry).
* `Shop.leaveShopStep`    — one evaluation of `leaveShop`'s wait loop:
  either the loop condition `in_service_[barbID]` still holds (block), or
  the payment code after the loop runs.
* `Shop.helloEntry` / `Shop.helloResume` — `helloCustomer` up to its
  first wait, and one evaluation of the `while` re-check loop.
* `Shop.byeEntry` / `Shop.byeResume` — `byeCustomer` before and after the
  unguarded `cond_barber_paid_` wait.

The C++ `-1` sentinel of `assignBarber` becomes `Option.none`;
`visitShop` translates it back to the integer `-1` it returns.
-/

namespace Barbershop

/-- The `Shop` monitor state: the mutable data members of `class Shop`
(`Shop.h`).  The three parallel arrays are indexed by barber chair. -/
structure Shop where
  max_waiting_cust_ : Int
  max_working_barb_ : Int
  waiting_customers_ : Int
  sleeping_barbs_ : Int
  cust_drops_ : Int
  customer_in_chair_ : List Int
  in_service_ : List Bool
  money_paid_ : List Bool
deriving Repr, DecidableEq

/-- `kDefaultNumChairs` from `Shop.h`. -/
def kDefaultNumChairs : Int := 3

/-- `kDefaultBarbers` from `Shop.h`. -/
def kDefaultBarbers : Int := 1

/-- The parameter constructor `Shop::Shop(int, int)` together with
`Shop::init()`: invalid arguments are replaced by the defaults, the per
chair arrays are allocated with `max_working_barb_` entries and zeroed. -/
def Shop.mkParam (num_barbers num_chairs : Int) : Shop :=
  let waiting : Int := if 0 ≤ num_chairs then num_chairs else kDefaultNumChairs
  let barbers : Int := if 0 < num_barbers then num_barbers else kDefaultBarbers
  { max_waiting_cust_ := waiting
    max_working_barb_ := barbers
    waiting_customers_ := 0
    sleeping_barbs_ := 0
    cust_drops_ := 0
    customer_in_chair_ := List.replicate barbers.toNat 0
    in_service_ := List.replicate barbers.toNat false
    money_paid_ := List.replicate barbers.toNat false }

/-- The zero-argument constructor `Shop::Shop()` together with
`Shop::init()`: both capacities take their default values. -/
def Shop.mkDefault : Shop :=
  { max_waiting_cust_ := kDefaultNumChairs
    max_working_barb_ := kDefaultBarbers
    waiting_customers_ := 0
    sleeping_barbs_ := 0
    cust_drops_ := 0
    customer_in_chair_ := List.replicate kDefaultBarbers.toNat 0
    in_service_ := List.replicate kDefaultBarbers.toNat false
    money_paid_ := List.replicate kDefaultBarbers.toNat false }

/-- `Shop::assignBarber(int)` acting on the `customer_in_chair_` array:
scan the chairs in index order, put `custID` into the first chair holding
`0` and return its index with the updated array; `none` embeds the C++
return value `-1` (no free chair, array untouched). -/
def assignBarber : List Int → Int → Option (Nat × List Int)
  | [], _ => none
  | c :: rest, custID =>
    if c = 0 then some (0, custID :: rest)
    else
      match assignBarber rest custID with
      | some (b, rest2) => some (b + 1, c :: rest2)
      | none => none

/-- `Shop::assignBarber(int)` at the level of the whole monitor state:
on success it also decrements `sleeping_barbs_` (the `sleeping_barbs_--`
in the loop body). -/
def Shop.assign (s : Shop) (custID : Int) : Option (Nat × Shop) :=
  match assignBarber s.customer_in_chair_ custID with
  | none => none
  | some (b, chairs) =>
      some (b, { s with customer_in_chair_ := chairs,
                        sleeping_barbs_ := s.sleeping_barbs_ - 1 })

/-- The common tail of `visitShop`: `in_service_[barbID] = true` followed
by the `cond_barber_sleeping_` signal (the signal itself carries no
state). -/
def Shop.startService (s : Shop) (barbID : Nat) : Shop :=
  { s with in_service_ := s.in_service_.set barbID true }

/-- Outcome of the entry segment of `visitShop`: it either returns
`barbID` (a chair index or `-1`) with the monitor state at unlock, or
blocks on `cond_customers_waiting_` leaving the given state. -/
inductive VisitRes where
  | ret (barbID : Int) (s : Shop)
  | blocked (s : Shop)
deriving Repr, DecidableEq

/-- `Shop::visitShop(int)` from the lock acquisition up to (and
including the state effects before) the `cond_customers_waiting_` wait:
the zero-waiting-chairs branch, the full-waiting-room early return, the
first `assignBarber` attempt, and the `waiting_customers_++` performed
before blocking. -/
def Shop.visitShopEntry (s : Shop) (custID : Int) : VisitRes :=
  if s.max_waiting_cust_ = 0 then
    match s.assign custID with
    | none => .ret (-1) { s with cust_drops_ := s.cust_drops_ + 1 }
    | some (b, s1) => .ret (b : Int) (s1.startService b)
  else
    if s.max_waiting_cust_ = s.waiting_customers_ then
      .ret (-1) { s with cust_drops_ := s.cust_drops_ + 1 }
    else
      match s.assign custID with
      | some (b, s1) => .ret (b : Int) (s1.startService b)
      | none => .blocked { s with waiting_customers_ := s.waiting_customers_ + 1 }

/-- `Shop::visitShop(int)` after waking from the
`cond_customers_waiting_` wait: the single `assignBarber` retry; on
failure `cust_drops_++` and `waiting_customers_--` before returning
`-1`, on success `waiting_customers_--` and the common
`in_service_ := true` tail before returning the chair index. -/
def Shop.visitShopResume (s : Shop) (custID : Int) : Int × Shop :=
  match s.assign custID with
  | none =>
      ((-1 : Int), { s with cust_drops_ := s.cust_drops_ + 1,
                            waiting_customers_ := s.waiting_customers_ - 1 })
  | some (b, s1) =>
      ((b : Int),
        ({ s1 with waiting_customers_ := s1.waiting_customers_ - 1 }).startService b)

/-- One evaluation of `Shop::leaveShop(int,int)`'s wait loop: while
`in_service_[barbID]` is true the caller blocks again (`none`);
otherwise it sets `money_paid_[barbID] = true`, signals
`cond_barber_paid_`, and returns. -/
def Shop.leaveShopStep (s : Shop) (barbID : Nat) : Option Shop :=
  if s.in_service_.getD barbID false then none
  else some { s with money_paid_ := s.money_paid_.set barbID true }

/-- Outcome of a `helloCustomer` segment: the barber either proceeds to
cut hair (`done`) or blocks on `cond_barber_sleeping_`. -/
inductive HelloRes where
  | done (s : Shop)
  | blocked (s : Shop)
deriving Repr, DecidableEq

/-- One evaluation of `Shop::helloCustomer(int)`'s `while` re-check loop
(also run after every wake-up): block again while
`customer_in_chair_[barbID] == 0`, otherwise return. -/
def Shop.helloResume (s : Shop) (barbID : Nat) : HelloRes :=
  if s.customer_in_chair_.getD barbID 0 = 0 then .blocked s else .done s

/-- `Shop::helloCustomer(int)` from the lock acquisition up to its first
wait: if no customer is waiting and the chair is empty the barber sleeps
(`sleeping_barbs_++` then block), otherwise it falls into the `while`
re-check loop. -/
def Shop.helloEntry (s : Shop) (barbID : Nat) : HelloRes :=
  if s.waiting_customers_ = 0 ∧ s.customer_in_chair_.getD barbID 0 = 0 then
    .blocked { s with sleeping_barbs_ := s.sleeping_barbs_ + 1 }
  else s.helloResume barbID

/-- `Shop::byeCustomer(int)` before its `cond_barber_paid_` wait:
`in_service_[barbID] = false`, `money_paid_[barbID] = false`, then the
`cond_customer_served_` signal; the caller then blocks unconditionally
(the wait is not guarded by any predicate loop in the source). -/
def Shop.byeEntry (s : Shop) (barbID : Nat) : Shop :=
  { s with in_service_ := s.in_service_.set barbID false,
           money_paid_ := s.money_paid_.set barbID false }

/-- `Shop::byeCustomer(int)` after waking from the `cond_barber_paid_`
wait: `customer_in_chair_[barbID] = 0`, `sleeping_barbs_++`, then the
`cond_customers_waiting_` signal.  Note the source re-checks nothing on
wake-up: this segment runs whatever the value of `money_paid_[barbID]`. -/
def Shop.byeResume (s : Shop) (barbID : Nat) : Shop :=
  { s with customer_in_chair_ := s.customer_in_chair_.set barbID 0,
           sleeping_barbs_ := s.sleeping_barbs_ + 1 }

/-- `Shop::get_cust_drops()`. -/
def Shop.get_cust_drops (s : Shop) : Int := s.cust_drops_

/-- Phase of one customer thread of `driver.cpp` (`customer(void*)`):
it calls `visitShop` once and, only on a non-`-1` result, `leaveShop`
once with the returned chair index. -/
inductive CustPhase where
  | idle
  | waitingSeat
  | admitted (slot : Nat)
  | inLeave (slot : Nat)
  | served
  | dropped
deriving Repr, DecidableEq

/-- Phase of one barber thread of `driver.cpp` (`barber(void*)`): it
loops `helloCustomer` then `byeCustomer` forever on its own chair. -/
inductive BarbPhase where
  | idle
  | inHello
  | cutting
  | inBye
deriving Repr, DecidableEq

def CustPhase.isWaiting : CustPhase → Bool
  | .waitingSeat => true
  | _ => false

def CustPhase.isDropped : CustPhase → Bool
  | .dropped => true
  | _ => false

def CustPhase.isServed : CustPhase → Bool
  | .served => true
  | _ => false

/-- Whole-system state: the shared `Shop` plus the phase of barber
thread `b` (who uses chair `b`) and of customer thread `k` (who passes
customer ID `k + 1`, as `main` does with `new ThreadParam(&shop, i + 1, 0)`). -/
structure Sys where
  shop : Shop
  barbs : List BarbPhase
  custs : List CustPhase
deriving Repr, DecidableEq

/-- One atomic monitor segment executed by some thread, under the driver
protocol of `driver.cpp`.  Wake-ups from a condition wait may happen at
any time (POSIX permits spurious wake-ups), so every `Resume` segment is
enabled whenever the corresponding thread is blocked. -/
inductive Step : Sys → Sys → Prop where
  | visitAdmit (sys : Sys) (k b : Nat) (s2 : Shop) :
      sys.custs.get? k = some .idle →
      sys.shop.visitShopEntry ((k : Int) + 1) = .ret (b : Int) s2 →
      Step sys ⟨s2, sys.barbs, sys.custs.set k (.admitted b)⟩
  | visitDrop (sys : Sys) (k : Nat) (s2 : Shop) :
      sys.custs.get? k = some .idle →
      sys.shop.visitShopEntry ((k : Int) + 1) = .ret (-1) s2 →
      Step sys ⟨s2, sys.barbs, sys.custs.set k .dropped⟩
  | visitWait (sys : Sys) (k : Nat) (s2 : Shop) :
      sys.custs.get? k = some .idle →
      sys.shop.visitShopEntry ((k : Int) + 1) = .blocked s2 →
      Step sys ⟨s2, sys.barbs, sys.custs.set k .waitingSeat⟩
  | wakeAdmit (sys : Sys) (k b : Nat) (s2 : Shop) :
      sys.custs.get? k = some .waitingSeat →
      sys.shop.visitShopResume ((k : Int) + 1) = ((b : Int), s2) →
      Step sys ⟨s2, sys.barbs, sys.custs.set k (.admitted b)⟩
  | wakeDrop (sys : Sys) (k : Nat) (s2 : Shop) :
      sys.custs.get? k = some .waitingSeat →
      sys.shop.visitShopResume ((k : Int) + 1) = (-1, s2) →
      Step sys ⟨s2, sys.barbs, sys.custs.set k .dropped⟩
  | leaveWait (sys : Sys) (k slot : Nat) :
      sys.custs.get? k = some (.admitted slot) →
      sys.shop.leaveShopStep slot = none →
      Step sys ⟨sys.shop, sys.barbs, sys.custs.set k (.inLeave slot)⟩
  | leavePay (sys : Sys) (k slot : Nat) (s2 : Shop) :
      sys.custs.get? k = some (.admitted slot) →
      sys.shop.leaveShopStep slot = some s2 →
      Step sys ⟨s2, sys.barbs, sys.custs.set k .served⟩
  | leaveWakePay (sys : Sys) (k slot : Nat) (s2 : Shop) :
      sys.custs.get? k = some (.inLeave slot) →
      sys.shop.leaveShopStep slot = some s2 →
      Step sys ⟨s2, sys.barbs, sys.custs.set k .served⟩
  | leaveSpur (sys : Sys) (k slot : Nat) :
      sys.custs.get? k = some (.inLeave slot) →
      sys.shop.leaveShopStep slot = none →
      Step sys sys
  | helloSleep (sys : Sys) (b : Nat) (s2 : Shop) :
      sys.barbs.get? b = some .idle →
      sys.shop.helloEntry b = .blocked s2 →
      Step sys ⟨s2, sys.barbs.set b .inHello, sys.custs⟩
  | helloServe (sys : Sys) (b : Nat) (s2 : Shop) :
      sys.barbs.get? b = some .idle →
      sys.shop.helloEntry b = .done s2 →
      Step sys ⟨s2, sys.barbs.set b .cutting, sys.custs⟩
  | helloWakeServe (sys : Sys) (b : Nat) (s2 : Shop) :
      sys.barbs.get? b = some .inHello →
      sys.shop.helloResume b = .done s2 →
      Step sys ⟨s2, sys.barbs.set b .cutting, sys.custs⟩
  | helloSpur (sys : Sys) (b : Nat) (s2 : Shop) :
      sys.barbs.get? b = some .inHello →
      sys.shop.helloResume b = .blocked s2 →
      Step sys ⟨s2, sys.barbs, sys.custs⟩
  | byeStart (sys : Sys) (b : Nat) :
      sys.barbs.get? b = some .cutting →
      Step sys ⟨sys.shop.byeEntry b, sys.barbs.set b .inBye, sys.custs⟩
  | byeFinish (sys : Sys) (b : Nat) :
      sys.barbs.get? b = some .inBye →
      Step sys ⟨sys.shop.byeResume b, sys.barbs.set b .idle, sys.custs⟩

/-- The state `main` sets up before any thread runs: a freshly
constructed `Shop(num_barbers, num_chairs)`, one barber thread per
chair, and `m` customer threads that have not yet called `visitShop`. -/
def initSys (num_barbers num_chairs : Int) (m : Nat) : Sys :=
  let s := Shop.mkParam num_barbers num_chairs
  ⟨s, List.replicate s.max_working_barb_.toNat .idle, List.replicate m .idle⟩

/-- Reachability under the driver protocol. -/
def Reachable (num_barbers num_chairs : Int) (m : Nat) (sys : Sys) : Prop :=
  Relation.ReflTransGen Step (initSys num_barbers num_chairs m) sys

/-! ### Concrete states used to exercise the theorems -/

/-- A `Shop(1, 0)` whose single service chair is taken by customer 2. -/
def wShopFull : Shop := ⟨0, 1, 0, 0, 0, [2], [false], [false]⟩

/-- A `Shop(1, 1)` whose chair is taken by customer 7, in service. -/
def wShopBlock : Shop := ⟨1, 1, 0, 0, 0, [7], [true], [false]⟩

/-- A `Shop(1, 1)` seen by a customer waking from the admission wait:
one waiting customer (itself), the chair now free. -/
def wShopWake : Shop := ⟨1, 1, 1, 0, 0, [0], [false], [false]⟩

/-- A `Shop(1, 2)` with both waiting chairs taken but the service chair
free. -/
def wShopSeats : Shop := ⟨2, 1, 2, 0, 0, [0], [false], [false]⟩

/-- A `Shop(1, 3)` whose customer 4 has been served (`in_service_`
already false) and is about to pay. -/
def wShopServed : Shop := ⟨3, 1, 0, 0, 0, [4], [false], [false]⟩

/-- `initSys 1 3 1`: one barber, three waiting chairs, one customer. -/
def byeSys0 : Sys := initSys 1 3 1

/-- The shop after customer 1 takes chair 0 of `byeSys0`. -/
def byeShop1 : Shop := ⟨3, 1, 0, -1, 0, [1], [true], [false]⟩

/-- `byeSys0` after customer 1's `visitShop` returns chair 0. -/
def byeSys1 : Sys := ⟨byeShop1, [.idle], [.admitted 0]⟩

/-- `byeSys1` after barber 0's `helloCustomer` returns. -/
def byeSys2 : Sys := ⟨byeShop1, [.cutting], [.admitted 0]⟩

/-- The shop after barber 0 runs `byeCustomer` up to its
`cond_barber_paid_` wait: service over, payment not yet made. -/
def byeShop3 : Shop := ⟨3, 1, 0, -1, 0, [1], [false], [false]⟩

/-- `byeSys2` after barber 0 blocks in `byeCustomer`; note
`money_paid_ = [false]`. -/
def byeSys3 : Sys := ⟨byeShop3, [.inBye], [.admitted 0]⟩

/-- The shop after barber 0's `byeCustomer` wait returns: chair 0 is
cleared although `money_paid_[0]` is still false. -/
def byeShop4 : Shop := ⟨3, 1, 0, 0, 0, [0], [false], [false]⟩

/-- `byeSys3` after the barber's unguarded wait resumes (a spurious
wake-up): the occupant is gone before any payment. -/
def byeSys4 : Sys := ⟨byeShop4, [.idle], [.admitted 0]⟩

/-! ### List helper lemmas -/

lemma lt_length_of_get? {α : Type} {l : List α} {k : Nat} {w : α}
    (h : l.get? k = some w) : k < l.length := by
  induction l generalizing k with
  | nil => simp [List.get?] at h
  | cons a t ih =>
    cases k with
    | zero => simp
    | succ k => simpa using ih (by simpa [List.get?] using h)

lemma getD_set_self {α : Type} {l : List α} {i : Nat} (v d : α)
    (h : i < l.length) : (l.set i v).getD i d = v := by
  induction l generalizing i with
  | nil => simp at h
  | cons a t ih =>
    cases i with
    | zero => simp [List.getD]
    | succ i => simpa [List.getD] using ih (by simpa using h)

lemma getD_set_ne {α : Type} {l : List α} {i j : Nat} (v d : α)
    (h : i ≠ j) : (l.set i v).getD j d = l.getD j d := by
  induction l generalizing i j with
  | nil => simp
  | cons a t ih =>
    cases i with
    | zero =>
      cases j with
      | zero => exact absurd rfl h
      | succ j => simp [List.getD]
    | succ i =>
      cases j with
      | zero => simp [List.getD]
      | succ j => simpa [List.getD] using ih (fun hij => h (by omega))

lemma get?_set_self {α : Type} {l : List α} {i : Nat} (v : α)
    (h : i < l.length) : (l.set i v).get? i = some v := by
  induction l generalizing i with
  | nil => simp at h
  | cons a t ih =>
    cases i with
    | zero => rfl
    | succ i => simpa [List.get?] using ih (by simpa using h)

lemma get?_set_ne {α : Type} {l : List α} {i j : Nat} (v : α)
    (h : i ≠ j) : (l.set i v).get? j = l.get? j := by
  induction l generalizing i j with
  | nil => simp
  | cons a t ih =>
    cases i with
    | zero =>
      cases j with
      | zero => exact absurd rfl h
      | succ j => rfl
    | succ i =>
      cases j with
      | zero => rfl
      | succ j => simpa [List.get?] using ih (fun hij => h (by omega))

lemma countP_set_int {α : Type} (p : α → Bool) {l : List α} {k : Nat} (v : α)
    {w : α} (h : l.get? k = some w) :
    ((l.set k v).countP p : Int)
      = (l.countP p : Int) + (if p v then 1 else 0) - (if p w then 1 else 0) := by
  induction l generalizing k with
  | nil => simp [List.get?] at h
  | cons a t ih =>
    cases k with
    | zero =>
      have hwa : w = a := by simpa [List.get?] using h.symm
      simp only [List.set, List.countP_cons, hwa]
      by_cases hv : p v <;> by_cases ha : p a <;>
        simp [hv, ha] <;> push_cast <;> omega
    | succ k =>
      have h' : t.get? k = some w := by simpa [List.get?] using h
      have ihh := ih h'
      simp only [List.set, List.countP_cons]
      by_cases ha : p a <;> by_cases hv : p v <;> by_cases hw : p w <;>
        simp [ha, hv, hw] at ihh ⊢ <;> push_cast at ihh ⊢ <;> omega

/-! ### `assignBarber` characterization -/

lemma assignBarber_some {chairs : List Int} {custID : Int} {b : Nat}
    {chairs2 : List Int} (h : assignBarber chairs custID = some (b, chairs2)) :
    b < chairs.length ∧ chairs.getD b 0 = 0
      ∧ (∀ j, j < b → chairs.getD j 0 ≠ 0)
      ∧ chairs2 = chairs.set b custID := by
  induction chairs generalizing b chairs2 with
  | nil => simp [assignBarber] at h
  | cons c rest ih =>
    by_cases hc : c = 0
    · simp only [assignBarber, if_pos hc] at h
      simp only [Option.some.injEq, Prod.mk.injEq] at h
      obtain ⟨hb, hch⟩ := h
      subst hb; subst hch
      refine ⟨by simp, by simpa using hc, ?_, by simp⟩
      intro j hj
      exact absurd hj (Nat.not_lt_zero j)
    · simp only [assignBarber, if_neg hc] at h
      cases hrec : assignBarber rest custID with
      | none => rw [hrec] at h; simp at h
      | some p =>
        obtain ⟨b', rest2⟩ := p
        rw [hrec] at h
        simp only [Option.some.injEq, Prod.mk.injEq] at h
        obtain ⟨hb, hch⟩ := h
        obtain ⟨hlt, hzero, hfirst, hset⟩ := ih hrec
        subst hb; subst hch
        refine ⟨?_, ?_, ?_, ?_⟩
        · simp only [List.length_cons]; omega
        · simpa using hzero
        · intro j hj
          cases j with
          | zero => simpa using hc
          | succ j =>
            rw [List.getD_cons_succ]
            exact hfirst j (by omega)
        · simp [hset]

lemma assignBarber_none_iff {chairs : List Int} {custID : Int} :
    assignBarber chairs custID = none
      ↔ ∀ j, j < chairs.length → chairs.getD j 0 ≠ 0 := by
  induction chairs with
  | nil => simp [assignBarber]
  | cons c rest ih =>
    by_cases hc : c = 0
    · simp only [assignBarber, if_pos hc]
      constructor
      · intro h; simp at h
      · intro h
        exact absurd (by simpa [List.getD] using hc) (h 0 (by simp))
    · simp only [assignBarber, if_neg hc]
      cases hrec : assignBarber rest custID with
      | none =>
        constructor
        · intro _ j hj
          cases j with
          | zero => simpa using hc
          | succ j =>
            rw [List.getD_cons_succ]
            exact (ih.mp hrec) j (by simpa using hj)
        · intro _; rfl
      | some p =>
        obtain ⟨b', rest2⟩ := p
        constructor
        · intro habs; simp at habs
        · intro hall
          obtain ⟨hlt, hzero, -, -⟩ := assignBarber_some hrec
          have hne := hall (b' + 1) (by simp only [List.length_cons]; omega)
          rw [List.getD_cons_succ] at hne
          exact absurd hzero hne

/-! ### Inversion lemmas for the monitor segments -/

lemma assign_some {s : Shop} {custID : Int} {b : Nat} {s1 : Shop}
    (h : s.assign custID = some (b, s1)) :
    ∃ chairs2, assignBarber s.customer_in_chair_ custID = some (b, chairs2)
      ∧ s1 = { s with customer_in_chair_ := chairs2,
                      sleeping_barbs_ := s.sleeping_barbs_ - 1 } := by
  unfold Shop.assign at h
  cases hrec : assignBarber s.customer_in_chair_ custID with
  | none => rw [hrec] at h; simp at h
  | some p =>
    obtain ⟨b', chairs2⟩ := p
    rw [hrec] at h
    simp only [Option.some.injEq, Prod.mk.injEq] at h
    obtain ⟨hb, hs⟩ := h
    subst hb
    exact ⟨chairs2, rfl, hs.symm⟩

lemma assign_none {s : Shop} {custID : Int} :
    s.assign custID = none ↔ assignBarber s.customer_in_chair_ custID = none := by
  unfold Shop.assign
  cases hrec : assignBarber s.customer_in_chair_ custID with
  | none => simp
  | some p => obtain ⟨b', chairs2⟩ := p; simp

/-- Effects of a successful `assignBarber` call on the whole state. -/
lemma assign_some_fields {s : Shop} {custID : Int} {b : Nat} {s1 : Shop}
    (h : s.assign custID = some (b, s1)) :
    b < s.customer_in_chair_.length
      ∧ s.customer_in_chair_.getD b 0 = 0
      ∧ (∀ j, j < b → s.customer_in_chair_.getD j 0 ≠ 0)
      ∧ s1.customer_in_chair_ = s.customer_in_chair_.set b custID
      ∧ s1.in_service_ = s.in_service_
      ∧ s1.money_paid_ = s.money_paid_
      ∧ s1.waiting_customers_ = s.waiting_customers_
      ∧ s1.cust_drops_ = s.cust_drops_
      ∧ s1.max_waiting_cust_ = s.max_waiting_cust_
      ∧ s1.max_working_barb_ = s.max_working_barb_ := by
  obtain ⟨chairs2, hrec, hs⟩ := assign_some h
  obtain ⟨hlt, hzero, hfirst, hset⟩ := assignBarber_some hrec
  subst hs
  exact ⟨hlt, hzero, hfirst, hset, rfl, rfl, rfl, rfl, rfl, rfl⟩

lemma visitEntry_ret_nonneg {s : Shop} {custID : Int} {b : Nat} {s2 : Shop}
    (h : s.visitShopEntry custID = .ret (b : Int) s2) :
    ∃ s1, s.assign custID = some (b, s1) ∧ s2 = s1.startService b := by
  unfold Shop.visitShopEntry at h
  split at h
  · cases hA : s.assign custID with
    | none =>
      rw [hA] at h
      simp only [VisitRes.ret.injEq] at h
      omega
    | some p =>
      obtain ⟨b', s1⟩ := p
      rw [hA] at h
      simp only [VisitRes.ret.injEq] at h
      obtain ⟨hb, hs⟩ := h
      have hbb : b' = b := by omega
      subst hbb
      exact ⟨s1, rfl, hs.symm⟩
  · split at h
    · simp only [VisitRes.ret.injEq] at h
      omega
    · cases hA : s.assign custID with
      | none =>
        rw [hA] at h
        simp at h
      | some p =>
        obtain ⟨b', s1⟩ := p
        rw [hA] at h
        simp only [VisitRes.ret.injEq] at h
        obtain ⟨hb, hs⟩ := h
        have hbb : b' = b := by omega
        subst hbb
        exact ⟨s1, rfl, hs.symm⟩

lemma visitEntry_ret_neg {s : Shop} {custID : Int} {s2 : Shop}
    (h : s.visitShopEntry custID = .ret (-1) s2) :
    s2 = { s with cust_drops_ := s.cust_drops_ + 1 }
      ∧ ((s.max_waiting_cust_ = 0 ∧ s.assign custID = none)
          ∨ (s.max_waiting_cust_ ≠ 0
              ∧ s.max_waiting_cust_ = s.waiting_customers_)) := by
  unfold Shop.visitShopEntry at h
  split at h
  · cases hA : s.assign custID with
    | none =>
      rw [hA] at h
      simp only [VisitRes.ret.injEq] at h
      exact ⟨h.2.symm, Or.inl ⟨by assumption, rfl⟩⟩
    | some p =>
      obtain ⟨b', s1⟩ := p
      rw [hA] at h
      simp only [VisitRes.ret.injEq] at h
      omega
  · split at h
    · simp only [VisitRes.ret.injEq] at h
      exact ⟨h.2.symm, Or.inr ⟨by assumption, by assumption⟩⟩
    · cases hA : s.assign custID with
      | none => rw [hA] at h; simp at h
      | some p =>
        obtain ⟨b', s1⟩ := p
        rw [hA] at h
        simp only [VisitRes.ret.injEq] at h
        omega

lemma visitEntry_blocked {s : Shop} {custID : Int} {s2 : Shop}
    (h : s.visitShopEntry custID = .blocked s2) :
    s2 = { s with waiting_customers_ := s.waiting_customers_ + 1 }
      ∧ s.assign custID = none
      ∧ s.max_waiting_cust_ ≠ 0
      ∧ s.max_waiting_cust_ ≠ s.waiting_customers_ := by
  unfold Shop.visitShopEntry at h
  split at h
  · cases hA : s.assign custID with
    | none => rw [hA] at h; simp at h
    | some p => obtain ⟨b', s1⟩ := p; rw [hA] at h; simp at h
  · split at h
    · simp at h
    · cases hA : s.assign custID with
      | none =>
        rw [hA] at h
        simp only [VisitRes.blocked.injEq] at h
        exact ⟨h.symm, rfl, by assumption, by assumption⟩
      | some p => obtain ⟨b', s1⟩ := p; rw [hA] at h; simp at h

lemma visitResume_nonneg {s : Shop} {custID : Int} {b : Nat} {s2 : Shop}
    (h : s.visitShopResume custID = ((b : Int), s2)) :
    ∃ s1, s.assign custID = some (b, s1)
      ∧ s2 = ({ s1 with
                waiting_customers_ := s1.waiting_customers_ - 1 }).startService b := by
  unfold Shop.visitShopResume at h
  cases hA : s.assign custID with
  | none =>
    rw [hA] at h
    simp only [Prod.mk.injEq] at h
    omega
  | some p =>
    obtain ⟨b', s1⟩ := p
    rw [hA] at h
    simp only [Prod.mk.injEq] at h
    obtain ⟨hb, hs⟩ := h
    have hbb : b' = b := by omega
    subst hbb
    exact ⟨s1, rfl, hs.symm⟩

lemma visitResume_neg {s : Shop} {custID : Int} {s2 : Shop}
    (h : s.visitShopResume custID = (-1, s2)) :
    s.assign custID = none
      ∧ s2 = { s with cust_drops_ := s.cust_drops_ + 1,
                      waiting_customers_ := s.waiting_customers_ - 1 } := by
  unfold Shop.visitShopResume at h
  cases hA : s.assign custID with
  | none =>
    rw [hA] at h
    simp only [Prod.mk.injEq] at h
    exact ⟨rfl, h.2.symm⟩
  | some p =>
    obtain ⟨b', s1⟩ := p
    rw [hA] at h
    simp only [Prod.mk.injEq] at h
    omega

lemma helloResume_done {s : Shop} {b : Nat} {s2 : Shop}
    (h : s.helloResume b = .done s2) :
    s2 = s ∧ s.customer_in_chair_.getD b 0 ≠ 0 := by
  unfold Shop.helloResume at h
  split at h
  · simp at h
  · simp only [HelloRes.done.injEq] at h
    exact ⟨h.symm, by assumption⟩

lemma helloResume_blocked {s : Shop} {b : Nat} {s2 : Shop}
    (h : s.helloResume b = .blocked s2) : s2 = s := by
  unfold Shop.helloResume at h
  split at h
  · simp only [HelloRes.blocked.injEq] at h
    exact h.symm
  · simp at h

lemma helloEntry_done {s : Shop} {b : Nat} {s2 : Shop}
    (h : s.helloEntry b = .done s2) :
    s2 = s ∧ s.customer_in_chair_.getD b 0 ≠ 0 := by
  unfold Shop.helloEntry at h
  split at h
  · simp at h
  · exact helloResume_done h

lemma helloEntry_blocked {s : Shop} {b : Nat} {s2 : Shop}
    (h : s.helloEntry b = .blocked s2) :
    s2 = { s with sleeping_barbs_ := s.sleeping_barbs_ + 1 } ∨ s2 = s := by
  unfold Shop.helloEntry at h
  split at h
  · simp only [HelloRes.blocked.injEq] at h
    exact Or.inl h.symm
  · exact Or.inr (helloResume_blocked h)

lemma leaveStep_some {s : Shop} {b : Nat} {s2 : Shop}
    (h : s.leaveShopStep b = some s2) :
    s.in_service_.getD b false = false
      ∧ s2 = { s with money_paid_ := s.money_paid_.set b true } := by
  unfold Shop.leaveShopStep at h
  split at h
  · simp at h
  · simp only [Option.some.injEq] at h
    exact ⟨by simpa using (by assumption : ¬s.in_service_.getD b false = true), h.symm⟩

/-! ### The inductive system invariant -/

/-- Inductive invariant tying the monitor fields to the thread phases.
`waitEq` states that `waiting_customers_` counts exactly the customers
blocked on `cond_customers_waiting_`, `dropsEq` that `cust_drops_`
counts exactly the dropped customers. -/
structure Inv (sys : Sys) : Prop where
  lenS : sys.shop.in_service_.length = sys.shop.customer_in_chair_.length
  lenB : sys.barbs.length = sys.shop.customer_in_chair_.length
  maxW0 : 0 ≤ sys.shop.max_waiting_cust_
  waitEq : sys.shop.waiting_customers_
      = (sys.custs.countP CustPhase.isWaiting : Int)
  waitLe : sys.shop.waiting_customers_ ≤ sys.shop.max_waiting_cust_
  dropsEq : sys.shop.cust_drops_
      = (sys.custs.countP CustPhase.isDropped : Int)
  svcOcc : ∀ i, sys.shop.in_service_.getD i false = true →
      sys.shop.customer_in_chair_.getD i 0 ≠ 0
  busyOcc : ∀ b, (sys.barbs.get? b = some .cutting
        ∨ sys.barbs.get? b = some .inBye) →
      sys.shop.customer_in_chair_.getD b 0 ≠ 0
  byeNoSvc : ∀ b, sys.barbs.get? b = some .inBye →
      sys.shop.in_service_.getD b false = false

/-- Seating a customer with a nonzero ID into a previously empty chair
preserves the three per-chair invariants. -/
lemma seat_preserves {chairs : List Int} {svc : List Bool}
    {barbs : List BarbPhase} {b : Nat} {cid : Int}
    (hlen : svc.length = chairs.length)
    (hb : b < chairs.length) (hb0 : chairs.getD b 0 = 0) (hcid : cid ≠ 0)
    (svcOcc : ∀ i, svc.getD i false = true → chairs.getD i 0 ≠ 0)
    (busyOcc : ∀ j, (barbs.get? j = some .cutting
        ∨ barbs.get? j = some .inBye) → chairs.getD j 0 ≠ 0)
    (byeNoSvc : ∀ j, barbs.get? j = some .inBye → svc.getD j false = false) :
    (∀ i, (svc.set b true).getD i false = true →
        (chairs.set b cid).getD i 0 ≠ 0)
      ∧ (∀ j, (barbs.get? j = some .cutting ∨ barbs.get? j = some .inBye) →
          (chairs.set b cid).getD j 0 ≠ 0)
      ∧ (∀ j, barbs.get? j = some .inBye →
          (svc.set b true).getD j false = false) := by
  refine ⟨?_, ?_, ?_⟩
  · intro i hi
    by_cases hib : i = b
    · subst hib
      rw [getD_set_self cid 0 hb]
      exact hcid
    · rw [getD_set_ne cid 0 (fun hbi => hib hbi.symm)]
      rw [getD_set_ne true false (fun hbi => hib hbi.symm)] at hi
      exact svcOcc i hi
  · intro j hj
    have hocc := busyOcc j hj
    by_cases hjb : j = b
    · subst hjb
      exact absurd hb0 hocc
    · rw [getD_set_ne cid 0 (fun hbj => hjb hbj.symm)]
      exact hocc
  · intro j hj
    have hocc := busyOcc j (Or.inr hj)
    by_cases hjb : j = b
    · subst hjb
      exact absurd hb0 hocc
    · rw [getD_set_ne true false (fun hbj => hjb hbj.symm)]
      exact byeNoSvc j hj

/-- Every driver-protocol segment preserves the invariant. -/
lemma step_inv {sys sys2 : Sys} (inv : Inv sys) (h : Step sys sys2) :
    Inv sys2 := by
  cases h with
  | visitAdmit k b s2 hk hv =>
    obtain ⟨s1, hA, hs2⟩ := visitEntry_ret_nonneg hv
    obtain ⟨hlt, hzero, -, hset, hsvc, hpaid, hwait, hdrops, hmaxw, hmaxb⟩ :=
      assign_some_fields hA
    have hcid : ((k : Int) + 1) ≠ 0 := by omega
    have hseat := seat_preserves inv.lenS hlt hzero hcid
      inv.svcOcc inv.busyOcc inv.byeNoSvc
    subst hs2
    refine ⟨?_, ?_, ?_, ?_, ?_, ?_, ?_, ?_, ?_⟩
    · simp [Shop.startService, hsvc, hset, inv.lenS]
    · simp [Shop.startService, hset, inv.lenB]
    · simpa [Shop.startService, hmaxw] using inv.maxW0
    · rw [countP_set_int CustPhase.isWaiting (CustPhase.admitted b) hk]
      have hw := inv.waitEq
      show s1.waiting_customers_ = _
      simp [CustPhase.isWaiting] <;> omega
    · simpa [Shop.startService, hwait, hmaxw] using inv.waitLe
    · rw [countP_set_int CustPhase.isDropped (CustPhase.admitted b) hk]
      have hd := inv.dropsEq
      show s1.cust_drops_ = _
      simp [CustPhase.isDropped] <;> omega
    · intro i hi
      have := hseat.1 i
      simp only [Shop.startService, hsvc, hset] at hi ⊢
      exact this hi
    · intro j hj
      have := hseat.2.1 j
      simp only [Shop.startService, hset] at *
      exact this hj
    · intro j hj
      have := hseat.2.2 j
      simp only [Shop.startService, hsvc, hset] at *
      exact this hj
  | visitDrop k s2 hk hv =>
    obtain ⟨hs2, -⟩ := visitEntry_ret_neg hv
    subst hs2
    refine ⟨inv.lenS, inv.lenB, inv.maxW0, ?_, inv.waitLe, ?_, inv.svcOcc,
      inv.busyOcc, inv.byeNoSvc⟩
    · rw [countP_set_int CustPhase.isWaiting CustPhase.dropped hk]
      simpa [CustPhase.isWaiting] using inv.waitEq
    · rw [countP_set_int CustPhase.isDropped CustPhase.dropped hk]
      have hd := inv.dropsEq
      show sys.shop.cust_drops_ + 1 = _
      simp [CustPhase.isDropped] <;> omega
  | visitWait k s2 hk hv =>
    obtain ⟨hs2, -, hne0, hneW⟩ := visitEntry_blocked hv
    subst hs2
    refine ⟨inv.lenS, inv.lenB, inv.maxW0, ?_, ?_, ?_, inv.svcOcc,
      inv.busyOcc, inv.byeNoSvc⟩
    · rw [countP_set_int CustPhase.isWaiting CustPhase.waitingSeat hk]
      have hw := inv.waitEq
      show sys.shop.waiting_customers_ + 1 = _
      simp [CustPhase.isWaiting] <;> omega
    · have h1 := inv.waitLe
      have h2 := hneW
      show sys.shop.waiting_customers_ + 1 ≤ sys.shop.max_waiting_cust_
      omega
    · rw [countP_set_int CustPhase.isDropped CustPhase.waitingSeat hk]
      have hd := inv.dropsEq
      show sys.shop.cust_drops_ = _
      simp [CustPhase.isDropped] <;> omega
  | wakeAdmit k b s2 hk hv =>
    obtain ⟨s1, hA, hs2⟩ := visitResume_nonneg hv
    obtain ⟨hlt, hzero, -, hset, hsvc, hpaid, hwait, hdrops, hmaxw, hmaxb⟩ :=
      assign_some_fields hA
    have hcid : ((k : Int) + 1) ≠ 0 := by omega
    have hseat := seat_preserves inv.lenS hlt hzero hcid
      inv.svcOcc inv.busyOcc inv.byeNoSvc
    subst hs2
    refine ⟨?_, ?_, ?_, ?_, ?_, ?_, ?_, ?_, ?_⟩
    · simp [Shop.startService, hsvc, hset, inv.lenS]
    · simp [Shop.startService, hset, inv.lenB]
    · simpa [Shop.startService, hmaxw] using inv.maxW0
    · rw [countP_set_int CustPhase.isWaiting (CustPhase.admitted b) hk]
      have hw := inv.waitEq
      show s1.waiting_customers_ - 1 = _
      simp [CustPhase.isWaiting] <;> omega
    · have h1 := inv.waitLe
      show s1.waiting_customers_ - 1 ≤ s1.max_waiting_cust_
      omega
    · rw [countP_set_int CustPhase.isDropped (CustPhase.admitted b) hk]
      have hd := inv.dropsEq
      show s1.cust_drops_ = _
      simp [CustPhase.isDropped] <;> omega
    · intro i hi
      have := hseat.1 i
      simp only [Shop.startService, hsvc, hset] at hi ⊢
      exact this hi
    · intro j hj
      have := hseat.2.1 j
      simp only [Shop.startService, hset] at *
      exact this hj
    · intro j hj
      have := hseat.2.2 j
      simp only [Shop.startService, hsvc, hset] at *
      exact this hj
  | wakeDrop k s2 hk hv =>
    obtain ⟨-, hs2⟩ := visitResume_neg hv
    subst hs2
    refine ⟨inv.lenS, inv.lenB, inv.maxW0, ?_, ?_, ?_, inv.svcOcc,
      inv.busyOcc, inv.byeNoSvc⟩
    · rw [countP_set_int CustPhase.isWaiting CustPhase.dropped hk]
      have hw := inv.waitEq
      show sys.shop.waiting_customers_ - 1 = _
      simp [CustPhase.isWaiting] <;> omega
    · have h1 := inv.waitLe
      have h2 := inv.maxW0
      show sys.shop.waiting_customers_ - 1 ≤ sys.shop.max_waiting_cust_
      omega
    · rw [countP_set_int CustPhase.isDropped CustPhase.dropped hk]
      have hd := inv.dropsEq
      show sys.shop.cust_drops_ + 1 = _
      simp [CustPhase.isDropped] <;> omega
  | leaveWait k slot hk hl =>
    refine ⟨inv.lenS, inv.lenB, inv.maxW0, ?_, inv.waitLe, ?_, inv.svcOcc,
      inv.busyOcc, inv.byeNoSvc⟩
    · rw [countP_set_int CustPhase.isWaiting (CustPhase.inLeave slot) hk]
      simpa [CustPhase.isWaiting] using inv.waitEq
    · rw [countP_set_int CustPhase.isDropped (CustPhase.inLeave slot) hk]
      simpa [CustPhase.isDropped] using inv.dropsEq
  | leavePay k slot s2 hk hl =>
    obtain ⟨-, hs2⟩ := leaveStep_some hl
    subst hs2
    refine ⟨inv.lenS, inv.lenB, inv.maxW0, ?_, inv.waitLe, ?_, inv.svcOcc,
      inv.busyOcc, inv.byeNoSvc⟩
    · rw [countP_set_int CustPhase.isWaiting CustPhase.served hk]
      simpa [CustPhase.isWaiting] using inv.waitEq
    · rw [countP_set_int CustPhase.isDropped CustPhase.served hk]
      simpa [CustPhase.isDropped] using inv.dropsEq
  | leaveWakePay k slot s2 hk hl =>
    obtain ⟨-, hs2⟩ := leaveStep_some hl
    subst hs2
    refine ⟨inv.lenS, inv.lenB, inv.maxW0, ?_, inv.waitLe, ?_, inv.svcOcc,
      inv.busyOcc, inv.byeNoSvc⟩
    · rw [countP_set_int CustPhase.isWaiting CustPhase.served hk]
      simpa [CustPhase.isWaiting] using inv.waitEq
    · rw [countP_set_int CustPhase.isDropped CustPhase.served hk]
      simpa [CustPhase.isDropped] using inv.dropsEq
  | leaveSpur k slot hk hl => exact inv
  | helloSleep b s2 hb hv =>
    have hblen : b < sys.barbs.length := lt_length_of_get? hb
    have heff : s2.customer_in_chair_ = sys.shop.customer_in_chair_
        ∧ s2.in_service_ = sys.shop.in_service_
        ∧ s2.waiting_customers_ = sys.shop.waiting_customers_
        ∧ s2.cust_drops_ = sys.shop.cust_drops_
        ∧ s2.max_waiting_cust_ = sys.shop.max_waiting_cust_ := by
      rcases helloEntry_blocked hv with hs2 | hs2 <;> subst hs2 <;>
        exact ⟨rfl, rfl, rfl, rfl, rfl⟩
    obtain ⟨hch, hsvc, hwait, hdrops, hmaxw⟩ := heff
    refine ⟨?_, ?_, ?_, ?_, ?_, ?_, ?_, ?_, ?_⟩
    · rw [hch, hsvc]; exact inv.lenS
    · rw [hch]; simpa using inv.lenB
    · rw [hmaxw]; exact inv.maxW0
    · rw [hwait]; exact inv.waitEq
    · rw [hwait, hmaxw]; exact inv.waitLe
    · rw [hdrops]; exact inv.dropsEq
    · intro i hi
      rw [hsvc] at hi
      rw [hch]
      exact inv.svcOcc i hi
    · intro j hj
      rw [hch]
      by_cases hjb : j = b
      · subst hjb
        rw [get?_set_self BarbPhase.inHello hblen] at hj
        rcases hj with hj | hj <;> simp at hj
      · rw [get?_set_ne BarbPhase.inHello (fun hbj => hjb hbj.symm)] at hj
        exact inv.busyOcc j hj
    · intro j hj
      rw [hsvc]
      by_cases hjb : j = b
      · subst hjb
        rw [get?_set_self BarbPhase.inHello hblen] at hj
        simp at hj
      · rw [get?_set_ne BarbPhase.inHello (fun hbj => hjb hbj.symm)] at hj
        exact inv.byeNoSvc j hj
  | helloServe b s2 hb hv =>
    obtain ⟨hs2, hocc⟩ := helloEntry_done hv
    subst hs2
    have hblen : b < sys.barbs.length := lt_length_of_get? hb
    refine ⟨inv.lenS, by simpa using inv.lenB, inv.maxW0, inv.waitEq,
      inv.waitLe, inv.dropsEq, inv.svcOcc, ?_, ?_⟩
    · intro j hj
      by_cases hjb : j = b
      · subst hjb; exact hocc
      · rw [get?_set_ne BarbPhase.cutting (fun hbj => hjb hbj.symm)] at hj
        exact inv.busyOcc j hj
    · intro j hj
      by_cases hjb : j = b
      · subst hjb
        rw [get?_set_self BarbPhase.cutting hblen] at hj
        simp at hj
      · rw [get?_set_ne BarbPhase.cutting (fun hbj => hjb hbj.symm)] at hj
        exact inv.byeNoSvc j hj
  | helloWakeServe b s2 hb hv =>
    obtain ⟨hs2, hocc⟩ := helloResume_done hv
    subst hs2
    have hblen : b < sys.barbs.length := lt_length_of_get? hb
    refine ⟨inv.lenS, by simpa using inv.lenB, inv.maxW0, inv.waitEq,
      inv.waitLe, inv.dropsEq, inv.svcOcc, ?_, ?_⟩
    · intro j hj
      by_cases hjb : j = b
      · subst hjb; exact hocc
      · rw [get?_set_ne BarbPhase.cutting (fun hbj => hjb hbj.symm)] at hj
        exact inv.busyOcc j hj
    · intro j hj
      by_cases hjb : j = b
      · subst hjb
        rw [get?_set_self BarbPhase.cutting hblen] at hj
        simp at hj
      · rw [get?_set_ne BarbPhase.cutting (fun hbj => hjb hbj.symm)] at hj
        exact inv.byeNoSvc j hj
  | helloSpur b s2 hb hv =>
    have hs2 := helloResume_blocked hv
    subst hs2
    exact inv
  | byeStart b hb =>
    have hblen : b < sys.barbs.length := lt_length_of_get? hb
    have hchlen : b < sys.shop.customer_in_chair_.length := by
      rw [← inv.lenB]; exact hblen
    have hslen : b < sys.shop.in_service_.length := by
      rw [inv.lenS]; exact hchlen
    refine ⟨?_, ?_, inv.maxW0, inv.waitEq, inv.waitLe, inv.dropsEq, ?_, ?_, ?_⟩
    · simp [Shop.byeEntry, inv.lenS]
    · simpa [Shop.byeEntry] using inv.lenB
    · intro i hi
      simp only [Shop.byeEntry] at hi ⊢
      by_cases hib : i = b
      · subst hib
        rw [getD_set_self false false hslen] at hi
        simp at hi
      · rw [getD_set_ne false false (fun hbi => hib hbi.symm)] at hi
        exact inv.svcOcc i hi
    · intro j hj
      simp only [Shop.byeEntry]
      by_cases hjb : j = b
      · subst hjb
        exact inv.busyOcc j (Or.inl hb)
      · rw [get?_set_ne BarbPhase.inBye (fun hbj => hjb hbj.symm)] at hj
        exact inv.busyOcc j hj
    · intro j hj
      simp only [Shop.byeEntry]
      by_cases hjb : j = b
      · subst hjb
        rw [getD_set_self false false hslen]
      · rw [get?_set_ne BarbPhase.inBye (fun hbj => hjb hbj.symm)] at hj
        rw [getD_set_ne false false (fun hbj => hjb hbj.symm)]
        exact inv.byeNoSvc j hj
  | byeFinish b hb =>
    have hblen : b < sys.barbs.length := lt_length_of_get? hb
    have hchlen : b < sys.shop.customer_in_chair_.length := by
      rw [← inv.lenB]; exact hblen
    refine ⟨?_, ?_, inv.maxW0, inv.waitEq, inv.waitLe, inv.dropsEq, ?_, ?_, ?_⟩
    · simp [Shop.byeResume, inv.lenS]
    · simpa [Shop.byeResume] using inv.lenB
    · intro i hi
      simp only [Shop.byeResume] at hi ⊢
      by_cases hib : i = b
      · subst hib
        exact absurd hi (by rw [inv.byeNoSvc i hb]; simp)
      · rw [getD_set_ne 0 0 (fun hbi => hib hbi.symm)]
        exact inv.svcOcc i hi
    · intro j hj
      simp only [Shop.byeResume]
      by_cases hjb : j = b
      · subst hjb
        rw [get?_set_self BarbPhase.idle hblen] at hj
        rcases hj with hj | hj <;> simp at hj
      · rw [get?_set_ne BarbPhase.idle (fun hbj => hjb hbj.symm)] at hj
        rw [getD_set_ne 0 0 (fun hbj => hjb hbj.symm)]
        exact inv.busyOcc j hj
    · intro j hj
      simp only [Shop.byeResume]
      by_cases hjb : j = b
      · subst hjb
        rw [get?_set_self BarbPhase.idle hblen] at hj
        simp at hj
      · rw [get?_set_ne BarbPhase.idle (fun hbj => hjb hbj.symm)] at hj
        exact inv.byeNoSvc j hj

/-- The invariant holds in the freshly constructed state. -/
lemma init_inv (num_barbers num_chairs : Int) (m : Nat) :
    Inv (initSys num_barbers num_chairs m) := by
  refine ⟨?_, ?_, ?_, ?_, ?_, ?_, ?_, ?_, ?_⟩
  · simp [initSys, Shop.mkParam]
  · simp [initSys, Shop.mkParam]
  · simp only [initSys, Shop.mkParam]
    split
    · omega
    · simp [kDefaultNumChairs]
  · have hc0 : List.countP CustPhase.isWaiting (List.replicate m CustPhase.idle)
        = 0 := by
      rw [List.countP_eq_zero]
      intro c hc
      rw [List.eq_of_mem_replicate hc]
      simp [CustPhase.isWaiting]
    show (0 : Int) = _
    simp [initSys, hc0]
  · simp only [initSys, Shop.mkParam]
    split
    · omega
    · simp [kDefaultNumChairs]
  · have hc0 : List.countP CustPhase.isDropped (List.replicate m CustPhase.idle)
        = 0 := by
      rw [List.countP_eq_zero]
      intro c hc
      rw [List.eq_of_mem_replicate hc]
      simp [CustPhase.isDropped]
    show (0 : Int) = _
    simp [initSys, hc0]
  · intro i hi
    simp only [initSys, Shop.mkParam] at hi
    by_cases hlt : i < ((if 0 < num_barbers then num_barbers
        else kDefaultBarbers) : Int).toNat
    · rw [List.getD_eq_getElem?_getD, List.getElem?_replicate] at hi
      simp [hlt] at hi
    · rw [List.getD_eq_getElem?_getD] at hi
      rw [List.getElem?_eq_none (by simpa using hlt)] at hi
      simp at hi
  · intro b hb
    simp only [initSys] at hb
    rcases hb with hb | hb <;>
      exact absurd (List.eq_of_mem_replicate (List.get?_mem hb)) (by simp)
  · intro b hb
    simp only [initSys] at hb
    exact absurd (List.eq_of_mem_replicate (List.get?_mem hb)) (by simp)

/-- The invariant holds at every reachable state, and the customer
thread count never changes. -/
lemma reachable_inv {num_barbers num_chairs : Int} {m : Nat} {sys : Sys}
    (h : Reachable num_barbers num_chairs m sys) :
    Inv sys ∧ sys.custs.length = m := by
  induction h with
  | refl =>
    exact ⟨init_inv num_barbers num_chairs m, by simp [initSys]⟩
  | tail hab hbc ih =>
    refine ⟨step_inv ih.1 hbc, ?_⟩
    rw [← ih.2]
    cases hbc <;> simp

/-- Each segment never decreases `cust_drops_`. -/
lemma step_drops_mono {sys sys2 : Sys} (h : Step sys sys2) :
    sys.shop.cust_drops_ ≤ sys2.shop.cust_drops_ := by
  cases h with
  | visitAdmit k b s2 hk hv =>
    obtain ⟨s1, hA, hs2⟩ := visitEntry_ret_nonneg hv
    obtain ⟨-, -, -, -, -, -, -, hdrops, -, -⟩ := assign_some_fields hA
    subst hs2
    show sys.shop.cust_drops_ ≤ s1.cust_drops_
    omega
  | visitDrop k s2 hk hv =>
    obtain ⟨hs2, -⟩ := visitEntry_ret_neg hv
    subst hs2
    show sys.shop.cust_drops_ ≤ sys.shop.cust_drops_ + 1
    omega
  | visitWait k s2 hk hv =>
    obtain ⟨hs2, -, -, -⟩ := visitEntry_blocked hv
    subst hs2
    exact le_refl _
  | wakeAdmit k b s2 hk hv =>
    obtain ⟨s1, hA, hs2⟩ := visitResume_nonneg hv
    obtain ⟨-, -, -, -, -, -, -, hdrops, -, -⟩ := assign_some_fields hA
    subst hs2
    show sys.shop.cust_drops_ ≤ s1.cust_drops_
    omega
  | wakeDrop k s2 hk hv =>
    obtain ⟨-, hs2⟩ := visitResume_neg hv
    subst hs2
    show sys.shop.cust_drops_ ≤ sys.shop.cust_drops_ + 1
    omega
  | leaveWait k slot hk hl => exact le_refl _
  | leavePay k slot s2 hk hl =>
    obtain ⟨-, hs2⟩ := leaveStep_some hl
    subst hs2
    exact le_refl _
  | leaveWakePay k slot s2 hk hl =>
    obtain ⟨-, hs2⟩ := leaveStep_some hl
    subst hs2
    exact le_refl _
  | leaveSpur k slot hk hl => exact le_refl _
  | helloSleep b s2 hb hv =>
    rcases helloEntry_blocked hv with hs2 | hs2 <;> subst hs2 <;> exact le_refl _
  | helloServe b s2 hb hv =>
    obtain ⟨hs2, -⟩ := helloEntry_done hv
    subst hs2
    exact le_refl _
  | helloWakeServe b s2 hb hv =>
    obtain ⟨hs2, -⟩ := helloResume_done hv
    subst hs2
    exact le_refl _
  | helloSpur b s2 hb hv =>
    have hs2 := helloResume_blocked hv
    subst hs2
    exact le_refl _
  | byeStart b hb => exact le_refl _
  | byeFinish b hb => exact le_refl _

/-- `cust_drops_` never decreases along any execution. -/
lemma drops_mono {a b : Sys} (h : Relation.ReflTransGen Step a b) :
    a.shop.cust_drops_ ≤ b.shop.cust_drops_ := by
  induction h with
  | refl => exact le_refl _
  | tail hab hbc ih => exact le_trans ih (step_drops_mono hbc)

/-- When every customer thread has finished, the served and dropped
customers partition the customer list. -/
lemma count_finished {l : List CustPhase}
    (h : ∀ c, c ∈ l → c = CustPhase.served ∨ c = CustPhase.dropped) :
    l.countP CustPhase.isServed + l.countP CustPhase.isDropped = l.length := by
  induction l with
  | nil => simp
  | cons a t ih =>
    have ha := h a (by simp)
    have ht := ih (fun c hc => h c (by simp [hc]))
    rcases ha with ha | ha <;> subst ha <;>
      simp [List.countP_cons, CustPhase.isServed, CustPhase.isDropped] <;> omega

/-- Complete case analysis of the entry segment of `visitShop` when it
returns. -/
lemma visitEntry_ret_cases {s : Shop} {custID r : Int} {s2 : Shop}
    (h : s.visitShopEntry custID = .ret r s2) :
    (∃ (b : Nat) (s1 : Shop), r = (b : Int)
        ∧ s.assign custID = some (b, s1) ∧ s2 = s1.startService b)
      ∨ (r = -1 ∧ s2 = { s with cust_drops_ := s.cust_drops_ + 1 }) := by
  unfold Shop.visitShopEntry at h
  split at h
  · cases hA : s.assign custID with
    | none =>
      rw [hA] at h
      simp only [VisitRes.ret.injEq] at h
      exact Or.inr ⟨h.1.symm, h.2.symm⟩
    | some p =>
      obtain ⟨b, s1⟩ := p
      rw [hA] at h
      simp only [VisitRes.ret.injEq] at h
      exact Or.inl ⟨b, s1, h.1.symm, rfl, h.2.symm⟩
  · split at h
    · simp only [VisitRes.ret.injEq] at h
      exact Or.inr ⟨h.1.symm, h.2.symm⟩
    · cases hA : s.assign custID with
      | none => rw [hA] at h; simp at h
      | some p =>
        obtain ⟨b, s1⟩ := p
        rw [hA] at h
        simp only [VisitRes.ret.injEq] at h
        exact Or.inl ⟨b, s1, h.1.symm, rfl, h.2.symm⟩

/-- Complete case analysis of the resume segment of `visitShop`. -/
lemma visitResume_cases {s : Shop} {custID r : Int} {s2 : Shop}
    (h : s.visitShopResume custID = (r, s2)) :
    (∃ (b : Nat) (s1 : Shop), r = (b : Int)
        ∧ s.assign custID = some (b, s1)
        ∧ s2 = ({ s1 with
            waiting_customers_ := s1.waiting_customers_ - 1 }).startService b)
      ∨ (r = -1
          ∧ s.assign custID = none
          ∧ s2 = { s with cust_drops_ := s.cust_drops_ + 1,
                          waiting_customers_ := s.waiting_customers_ - 1 }) := by
  unfold Shop.visitShopResume at h
  cases hA : s.assign custID with
  | none =>
    rw [hA] at h
    simp only [Prod.mk.injEq] at h
    exact Or.inr ⟨h.1.symm, rfl, h.2.symm⟩
  | some p =>
    obtain ⟨b, s1⟩ := p
    rw [hA] at h
    simp only [Prod.mk.injEq] at h
    exact Or.inl ⟨b, s1, h.1.symm, rfl, h.2.symm⟩

/-! ### Claim theorems -/

/-- C1: every `visitShop` segment returns either a chair index in
`[0, capacity_barbers)` or `-1`; a segment bumps `cust_drops_` by one
exactly when it returns `-1`; the other monitor operations
(`leaveShop`, `helloCustomer`, `byeCustomer`, `get_cust_drops`) never
change `cust_drops_`; and `cust_drops_` is monotonically non-decreasing
along every execution of the driver protocol. -/
theorem claim1_visit_drop_accounting :
    (∀ (s : Shop) (custID r : Int) (s2 : Shop),
        (s.customer_in_chair_.length : Int) = s.max_working_barb_ →
        s.visitShopEntry custID = .ret r s2 →
        ((0 ≤ r ∧ r < s.max_working_barb_) ∨ r = -1)
          ∧ (r = -1 ↔ s2.cust_drops_ = s.cust_drops_ + 1)
          ∧ (r ≠ -1 → s2.cust_drops_ = s.cust_drops_))
      ∧ (∀ (s : Shop) (custID : Int) (s2 : Shop),
          s.visitShopEntry custID = .blocked s2 →
          s2.cust_drops_ = s.cust_drops_)
      ∧ (∀ (s : Shop) (custID r : Int) (s2 : Shop),
          (s.customer_in_chair_.length : Int) = s.max_working_barb_ →
          s.visitShopResume custID = (r, s2) →
          ((0 ≤ r ∧ r < s.max_working_barb_) ∨ r = -1)
            ∧ (r = -1 ↔ s2.cust_drops_ = s.cust_drops_ + 1)
            ∧ (r ≠ -1 → s2.cust_drops_ = s.cust_drops_))
      ∧ (∀ (s : Shop) (slot : Nat) (s2 : Shop),
          s.leaveShopStep slot = some s2 → s2.cust_drops_ = s.cust_drops_)
      ∧ (∀ (s : Shop) (b : Nat) (s2 : Shop),
          s.helloEntry b = .done s2 ∨ s.helloEntry b = .blocked s2 →
          s2.cust_drops_ = s.cust_drops_)
      ∧ (∀ (s : Shop) (b : Nat) (s2 : Shop),
          s.helloResume b = .done s2 ∨ s.helloResume b = .blocked s2 →
          s2.cust_drops_ = s.cust_drops_)
      ∧ (∀ (s : Shop) (b : Nat),
          (s.byeEntry b).cust_drops_ = s.cust_drops_
            ∧ (s.byeResume b).cust_drops_ = s.cust_drops_
            ∧ s.get_cust_drops = s.cust_drops_)
      ∧ (∀ a b : Sys, Relation.ReflTransGen Step a b →
          a.shop.cust_drops_ ≤ b.shop.cust_drops_) := by
  refine ⟨?_, ?_, ?_, ?_, ?_, ?_, ?_, ?_⟩
  · intro s custID r s2 hlen h
    rcases visitEntry_ret_cases h with ⟨b, s1, hr, hA, hs2⟩ | ⟨hr, hs2⟩
    · obtain ⟨hlt, -, -, -, -, -, -, hdrops, -, -⟩ := assign_some_fields hA
      subst hs2; subst hr
      have hd2 : (s1.startService b).cust_drops_ = s1.cust_drops_ := rfl
      refine ⟨Or.inl ⟨by omega, by omega⟩, ⟨?_, ?_⟩, ?_⟩
      · intro habs; exfalso; omega
      · intro habs
        rw [hd2, hdrops] at habs
        exfalso; omega
      · intro _
        rw [hd2, hdrops]
    · subst hs2; subst hr
      have hd2 : ({ s with cust_drops_ := s.cust_drops_ + 1 }).cust_drops_
          = s.cust_drops_ + 1 := rfl
      exact ⟨Or.inr rfl, ⟨fun _ => hd2, fun _ => rfl⟩,
        fun habs => absurd rfl habs⟩
  · intro s custID s2 h
    obtain ⟨hs2, -, -, -⟩ := visitEntry_blocked h
    subst hs2
    rfl
  · intro s custID r s2 hlen h
    rcases visitResume_cases h with ⟨b, s1, hr, hA, hs2⟩ | ⟨hr, -, hs2⟩
    · obtain ⟨hlt, -, -, -, -, -, -, hdrops, -, -⟩ := assign_some_fields hA
      subst hs2; subst hr
      have hd2 : (({ s1 with
          waiting_customers_ := s1.waiting_customers_ - 1 }).startService
            b).cust_drops_ = s1.cust_drops_ := rfl
      refine ⟨Or.inl ⟨by omega, by omega⟩, ⟨?_, ?_⟩, ?_⟩
      · intro habs; exfalso; omega
      · intro habs
        rw [hd2, hdrops] at habs
        exfalso; omega
      · intro _
        rw [hd2, hdrops]
    · subst hs2; subst hr
      have hd2 : ({ s with cust_drops_ := s.cust_drops_ + 1,
                            waiting_customers_ :=
                              s.waiting_customers_ - 1 }).cust_drops_
          = s.cust_drops_ + 1 := rfl
      exact ⟨Or.inr rfl, ⟨fun _ => hd2, fun _ => rfl⟩,
        fun habs => absurd rfl habs⟩
  · intro s slot s2 h
    obtain ⟨-, hs2⟩ := leaveStep_some h
    subst hs2
    rfl
  · intro s b s2 h
    rcases h with h | h
    · obtain ⟨hs2, -⟩ := helloEntry_done h
      subst hs2
      rfl
    · rcases helloEntry_blocked h with hs2 | hs2 <;> subst hs2 <;> rfl
  · intro s b s2 h
    rcases h with h | h
    · obtain ⟨hs2, -⟩ := helloResume_done h
      subst hs2
      rfl
    · have hs2 := helloResume_blocked h
      subst hs2
      rfl
  · intro s b
    exact ⟨rfl, rfl, rfl⟩
  · intro a b h
    exact drops_mono h

theorem claim1_witness :
    wShopFull.visitShopEntry 7 = .ret (-1) { wShopFull with cust_drops_ := 1 }
      ∧ ((-1 : Int) = -1 ↔
          ({ wShopFull with cust_drops_ := 1 } : Shop).cust_drops_
            = wShopFull.cust_drops_ + 1) := by
  constructor
  · decide
  · exact (claim1_visit_drop_accounting.1 wShopFull 7 (-1)
      { wShopFull with cust_drops_ := 1 } (by decide) (by decide)).2.1

/-- C2: `assignBarber` scans the chairs in index order, writes `custID`
into the first chair whose occupant is `0`, returns its index and
changes no other chair; it fails (the C++ `-1`, embedded as `none`)
exactly when every chair is occupied, and then changes nothing. -/
theorem claim2_assignBarber_first_fit :
    ∀ (chairs : List Int) (custID : Int),
      (∀ (b : Nat) (chairs2 : List Int),
          assignBarber chairs custID = some (b, chairs2) →
          b < chairs.length ∧ chairs.getD b 0 = 0
            ∧ (∀ j, j < b → chairs.getD j 0 ≠ 0)
            ∧ chairs2 = chairs.set b custID
            ∧ (∀ j, j ≠ b → chairs2.getD j 0 = chairs.getD j 0))
        ∧ (assignBarber chairs custID = none
            ↔ ∀ j, j < chairs.length → chairs.getD j 0 ≠ 0) := by
  intro chairs custID
  refine ⟨?_, assignBarber_none_iff⟩
  intro b chairs2 h
  obtain ⟨hlt, hzero, hfirst, hset⟩ := assignBarber_some h
  refine ⟨hlt, hzero, hfirst, hset, ?_⟩
  intro j hj
  rw [hset]
  exact getD_set_ne custID 0 (fun hbj => hj hbj.symm)

theorem claim2_witness :
    ([9, 5] : List Int) = ([0, 5] : List Int).set 0 9
      ∧ (0 : Nat) < ([0, 5] : List Int).length := by
  have h := (claim2_assignBarber_first_fit [0, 5] 9).1 0 [9, 5] (by decide)
  exact ⟨h.2.2.2.1, h.1⟩

/-- C3: when waiting chairs exist and the first assignment fails, the
caller increments `waiting_customers_` and blocks; the whole
computation after the wake-up is `visitShopResume`, a single retry with
no loop: on failure it decrements `waiting_customers_`, increments
`cust_drops_` and returns `-1`; on success it decrements
`waiting_customers_`, sets `in_service_` at the assigned chair and
returns that chair. -/
theorem claim3_visit_single_retry :
    ∀ (s : Shop) (custID : Int) (s2 : Shop),
      0 < s.max_waiting_cust_ →
      s.visitShopEntry custID = .blocked s2 →
      s2.waiting_customers_ = s.waiting_customers_ + 1
        ∧ s2.cust_drops_ = s.cust_drops_
        ∧ (∀ (t : Shop) (r : Int) (t2 : Shop),
            t.in_service_.length = t.customer_in_chair_.length →
            t.visitShopResume custID = (r, t2) →
            (r = -1 →
              t2.waiting_customers_ = t.waiting_customers_ - 1
                ∧ t2.cust_drops_ = t.cust_drops_ + 1)
              ∧ (0 ≤ r →
                t2.waiting_customers_ = t.waiting_customers_ - 1
                  ∧ t2.cust_drops_ = t.cust_drops_
                  ∧ t2.in_service_.getD r.toNat false = true)) := by
  intro s custID s2 hpos hblk
  obtain ⟨hs2, -, -, -⟩ := visitEntry_blocked hblk
  subst hs2
  refine ⟨rfl, rfl, ?_⟩
  intro t r t2 hlen h
  rcases visitResume_cases h with ⟨b, s1, hr, hA, ht2⟩ | ⟨hr, -, ht2⟩
  · obtain ⟨hlt, -, -, -, hsvc, -, hwait, hdrops, -, -⟩ := assign_some_fields hA
    subst ht2; subst hr
    constructor
    · intro habs; exfalso; omega
    · intro _
      have hw2 : (({ s1 with
          waiting_customers_ := s1.waiting_customers_ - 1 }).startService
            b).waiting_customers_ = s1.waiting_customers_ - 1 := rfl
      have hd2 : (({ s1 with
          waiting_customers_ := s1.waiting_customers_ - 1 }).startService
            b).cust_drops_ = s1.cust_drops_ := rfl
      refine ⟨by rw [hw2, hwait], by rw [hd2, hdrops], ?_⟩
      show (s1.in_service_.set b true).getD ((b : Int).toNat) false = true
      rw [Int.toNat_natCast]
      rw [hsvc]
      exact getD_set_self true false (by omega)
  · subst ht2; subst hr
    constructor
    · intro _
      exact ⟨rfl, rfl⟩
    · intro habs; exfalso; omega

theorem claim3_witness :
    ({ wShopBlock with waiting_customers_ := 1 } : Shop).waiting_customers_
        = wShopBlock.waiting_customers_ + 1
      ∧ (⟨1, 1, 0, -1, 0, [2], [true], [false]⟩ : Shop).in_service_.getD
          ((0 : Int).toNat) false = true := by
  have h := claim3_visit_single_retry wShopBlock 2
    { wShopBlock with waiting_customers_ := 1 } (by decide) (by decide)
  refine ⟨h.1, ?_⟩
  exact ((h.2.2 wShopWake 0 ⟨1, 1, 0, -1, 0, [2], [true], [false]⟩
    (by decide) (by decide)).2 (by decide)).2.2

/-- C4: `visitShop` drops a customer without blocking in exactly two
situations: (a) no waiting chairs configured and every service chair
occupied, and (b) waiting chairs configured and the waiting room full —
and in case (b) no assignment is attempted, so the customer is dropped
even when a service chair is free (the hypothesis of (b) says nothing
about the chairs).  In both cases the only state change is
`cust_drops_ + 1` (the structure-update equality fixes every other
field). -/
theorem claim4_nonblocking_drop_cases :
    ∀ (s : Shop) (custID : Int),
      0 ≤ s.max_waiting_cust_ →
      ((s.max_waiting_cust_ = 0
          ∧ (∀ j, j < s.customer_in_chair_.length →
              s.customer_in_chair_.getD j 0 ≠ 0)) →
        s.visitShopEntry custID
          = .ret (-1) { s with cust_drops_ := s.cust_drops_ + 1 })
      ∧ ((0 < s.max_waiting_cust_
            ∧ s.waiting_customers_ = s.max_waiting_cust_) →
          s.visitShopEntry custID
            = .ret (-1) { s with cust_drops_ := s.cust_drops_ + 1 })
      ∧ (∀ s2, s.visitShopEntry custID = .ret (-1) s2 →
          s2 = { s with cust_drops_ := s.cust_drops_ + 1 }
            ∧ ((s.max_waiting_cust_ = 0
                ∧ ∀ j, j < s.customer_in_chair_.length →
                    s.customer_in_chair_.getD j 0 ≠ 0)
              ∨ (0 < s.max_waiting_cust_
                ∧ s.waiting_customers_ = s.max_waiting_cust_))) := by
  intro s custID hmw
  refine ⟨?_, ?_, ?_⟩
  · rintro ⟨h0, hall⟩
    have hnone : s.assign custID = none :=
      assign_none.mpr (assignBarber_none_iff.mpr hall)
    unfold Shop.visitShopEntry
    rw [if_pos h0, hnone]
  · rintro ⟨hpos, heq⟩
    have h0 : ¬s.max_waiting_cust_ = 0 := by omega
    unfold Shop.visitShopEntry
    rw [if_neg h0, if_pos heq.symm]
  · intro s2 h
    obtain ⟨hs2, hcase⟩ := visitEntry_ret_neg h
    refine ⟨hs2, ?_⟩
    rcases hcase with ⟨h0, hnone⟩ | ⟨hne, heq⟩
    · exact Or.inl ⟨h0, assignBarber_none_iff.mp (assign_none.mp hnone)⟩
    · exact Or.inr ⟨by omega, heq.symm⟩

theorem claim4_witness :
    wShopSeats.visitShopEntry 4
      = .ret (-1) { wShopSeats with
                    cust_drops_ := wShopSeats.cust_drops_ + 1 } := by
  exact (claim4_nonblocking_drop_cases wShopSeats 4 (by decide)).2.1
    ⟨by decide, by decide⟩

/-- C5: in every state reachable under the driver protocol,
`0 ≤ waiting_customers_ ≤ max_waiting_cust_` and a chair marked
`in_service_` always has an occupant; moreover every single protocol
segment taken from a reachable state preserves both predicates. -/
theorem claim5_capacity_and_service_invariants :
    ∀ (num_barbers num_chairs : Int) (m : Nat) (sys : Sys),
      Reachable num_barbers num_chairs m sys →
      (0 ≤ sys.shop.waiting_customers_
          ∧ sys.shop.waiting_customers_ ≤ sys.shop.max_waiting_cust_
          ∧ (∀ i, sys.shop.in_service_.getD i false = true →
              sys.shop.customer_in_chair_.getD i 0 ≠ 0))
        ∧ (∀ sys2, Step sys sys2 →
            0 ≤ sys2.shop.waiting_customers_
              ∧ sys2.shop.waiting_customers_ ≤ sys2.shop.max_waiting_cust_
              ∧ (∀ i, sys2.shop.in_service_.getD i false = true →
                  sys2.shop.customer_in_chair_.getD i 0 ≠ 0)) := by
  intro num_barbers num_chairs m sys hr
  have hbase : ∀ t : Sys, Inv t →
      0 ≤ t.shop.waiting_customers_
        ∧ t.shop.waiting_customers_ ≤ t.shop.max_waiting_cust_
        ∧ (∀ i, t.shop.in_service_.getD i false = true →
            t.shop.customer_in_chair_.getD i 0 ≠ 0) := by
    intro t it
    refine ⟨?_, it.waitLe, it.svcOcc⟩
    rw [it.waitEq]
    exact Int.natCast_nonneg _
  have hinv := (reachable_inv hr).1
  exact ⟨hbase sys hinv, fun sys2 hst => hbase sys2 (step_inv hinv hst)⟩

theorem claim5_witness :
    0 ≤ (initSys 2 3 1).shop.waiting_customers_
      ∧ (initSys 2 3 1).shop.waiting_customers_
        ≤ (initSys 2 3 1).shop.max_waiting_cust_ := by
  have h := (claim5_capacity_and_service_invariants 2 3 1 (initSys 2 3 1)
    Relation.ReflTransGen.refl).1
  exact ⟨h.1, h.2.1⟩

/-- C6: the claim says `byeCustomer` blocks on the barber-paid signal
*until `paid[slot]` is true* and never clears the occupant before
payment.  The source wait (`Shop.cpp` line 339) is a bare
`pthread_cond_wait` with no predicate re-check, so a spurious wake-up —
which POSIX permits and the spec explicitly requires guarding against —
resumes `byeCustomer` with `money_paid_[0]` still false, and the code
then clears `customer_in_chair_[0]` anyway.  The state `byeSys3`
(barber blocked in `byeCustomer`, payment not made) is reachable under
the driver protocol, the modelled wake-up is a legal step, and it
clears the chair while `money_paid_[0] = false`. -/
theorem claim6_bye_clears_chair_without_payment_check :
    Reachable 1 3 1 byeSys3
      ∧ Step byeSys3 byeSys4
      ∧ byeShop3.money_paid_.getD 0 false = false
      ∧ byeShop3.customer_in_chair_.getD 0 0 = 1
      ∧ byeShop4.customer_in_chair_.getD 0 0 = 0
      ∧ byeShop4.money_paid_.getD 0 false = false := by
  refine ⟨?_, Step.byeFinish byeSys3 0 rfl, rfl, rfl, rfl, rfl⟩
  have h1 : Step byeSys0 byeSys1 :=
    Step.visitAdmit byeSys0 0 0 byeShop1 rfl (by decide)
  have h2 : Step byeSys1 byeSys2 :=
    Step.helloServe byeSys1 0 byeShop1 rfl (by decide)
  have h3 : Step byeSys2 byeSys3 := Step.byeStart byeSys2 0 rfl
  exact Relation.ReflTransGen.head h1
    (Relation.ReflTransGen.head h2 (Relation.ReflTransGen.single h3))

/-- C7: one evaluation of `leaveShop`'s body blocks again exactly while
`in_service_[slot]` is true; when it completes, it sets
`money_paid_[slot] = true` and changes nothing else — every other
field, and every other chair's `money_paid_`, is unchanged, and in
particular `customer_in_chair_[slot]` is not cleared. -/
theorem claim7_leaveShop_frame :
    ∀ (s : Shop) (slot : Nat),
      (s.in_service_.getD slot false = true → s.leaveShopStep slot = none)
        ∧ (∀ s2, s.leaveShopStep slot = some s2 →
            s.in_service_.getD slot false = false
              ∧ s2.money_paid_ = s.money_paid_.set slot true
              ∧ (∀ j, j ≠ slot →
                  s2.money_paid_.getD j false = s.money_paid_.getD j false)
              ∧ s2.customer_in_chair_ = s.customer_in_chair_
              ∧ s2.in_service_ = s.in_service_
              ∧ s2.waiting_customers_ = s.waiting_customers_
              ∧ s2.cust_drops_ = s.cust_drops_
              ∧ s2.sleeping_barbs_ = s.sleeping_barbs_
              ∧ s2.max_waiting_cust_ = s.max_waiting_cust_
              ∧ s2.max_working_barb_ = s.max_working_barb_) := by
  intro s slot
  constructor
  · intro h
    unfold Shop.leaveShopStep
    rw [if_pos h]
  · intro s2 h
    obtain ⟨hsvc, hs2⟩ := leaveStep_some h
    subst hs2
    refine ⟨hsvc, rfl, ?_, rfl, rfl, rfl, rfl, rfl, rfl, rfl⟩
    intro j hj
    exact getD_set_ne true false (fun hsj => hj hsj.symm)

theorem claim7_witness :
    ({ wShopServed with money_paid_ := [true] } : Shop).money_paid_
        = wShopServed.money_paid_.set 0 true
      ∧ wShopServed.in_service_.getD 0 false = false := by
  have h := (claim7_leaveShop_frame wShopServed 0).2
    { wShopServed with money_paid_ := [true] } (by decide)
  exact ⟨h.2.1, h.1⟩

/-- C8: the parameter constructor keeps `num_barbers` when positive and
substitutes the default 1 otherwise, keeps `num_chairs` when
non-negative and substitutes the default 3 otherwise; the zero-argument
constructor uses both defaults.  Both constructors are total: invalid
arguments are silently replaced, never rejected. -/
theorem claim8_constructor_defaults :
    (∀ num_barbers num_chairs : Int,
        (Shop.mkParam num_barbers num_chairs).max_working_barb_
            = (if 0 < num_barbers then num_barbers else 1)
          ∧ (Shop.mkParam num_barbers num_chairs).max_waiting_cust_
            = (if 0 ≤ num_chairs then num_chairs else 3))
      ∧ Shop.mkDefault.max_working_barb_ = 1
      ∧ Shop.mkDefault.max_waiting_cust_ = 3 := by
  refine ⟨?_, rfl, rfl⟩
  intro nb nc
  constructor <;> simp [Shop.mkParam, kDefaultBarbers, kDefaultNumChairs]

/-- C9: over any driver-protocol execution in which every customer
thread has finished (each is `served` or `dropped`), the number of
served customers plus the final `cust_drops_` equals the number of
customers. -/
theorem claim9_roundtrip :
    ∀ (num_barbers num_chairs : Int) (m : Nat) (sys : Sys),
      Reachable num_barbers num_chairs m sys →
      (∀ c, c ∈ sys.custs → c = CustPhase.served ∨ c = CustPhase.dropped) →
      (sys.custs.countP CustPhase.isServed : Int)
        + sys.shop.cust_drops_ = (m : Int) := by
  intro num_barbers num_chairs m sys hr hall
  obtain ⟨hinv, hlen⟩ := reachable_inv hr
  have hcnt := count_finished hall
  rw [hinv.dropsEq, ← hlen]
  push_cast
  omega

theorem claim9_witness :
    ((initSys 1 3 0).custs.countP CustPhase.isServed : Int)
      + (initSys 1 3 0).shop.cust_drops_ = ((0 : Nat) : Int) := by
  exact claim9_roundtrip 1 3 0 (initSys 1 3 0) Relation.ReflTransGen.refl
    (by intro c hc; simp [initSys] at hc)

/-- C10: the empty chair is encoded as occupant value `0`
(`Shop::init()` zeroes `customer_in_chair_`), so chair exclusivity
relies on customer IDs being nonzero (the driver passes `i + 1`).  With
any nonzero ID, `assignBarber` fills an empty chair and leaves it
visibly occupied.  With `custID = 0`, `visitShop 0` on `Shop(1, 0)`
returns chair 0 but leaves the chair looking empty, and a subsequent
`visitShop 5` is given the same chair 0 while the first customer is
still in service — a double assignment. -/
theorem claim10_zero_custID_breaks_exclusivity :
    (∀ (chairs : List Int) (custID : Int) (b : Nat) (chairs2 : List Int),
        custID ≠ 0 → assignBarber chairs custID = some (b, chairs2) →
        chairs.getD b 0 = 0 ∧ chairs2.getD b 0 ≠ 0)
      ∧ (Shop.mkParam 1 0).visitShopEntry 0
          = .ret 0 { Shop.mkParam 1 0 with
                     customer_in_chair_ := [0], in_service_ := [true],
                     sleeping_barbs_ := -1 }
      ∧ ({ Shop.mkParam 1 0 with
           customer_in_chair_ := [0], in_service_ := [true],
           sleeping_barbs_ := -1 } : Shop).visitShopEntry 5
          = .ret 0 { Shop.mkParam 1 0 with
                     customer_in_chair_ := [5], in_service_ := [true],
                     sleeping_barbs_ := -2 } := by
  refine ⟨?_, by decide, by decide⟩
  intro chairs custID b chairs2 hnz h
  obtain ⟨hlt, hzero, -, hset⟩ := assignBarber_some h
  refine ⟨hzero, ?_⟩
  rw [hset, getD_set_self custID 0 hlt]
  exact hnz

theorem claim10_witness :
    ([0] : List Int).getD 0 0 = 0 ∧ ([7] : List Int).getD 0 0 ≠ 0 := by
  exact claim10_zero_custID_breaks_exclusivity.1 [0] 7 0 [7]
    (by decide) (by decide)

end Barbershop
